import Mathlib

/-!
Verification of the WaveGlow ONNX export script
(demo/Tacotron2/exports/export_waveglow_onnx.py).

Tensors are modelled row-major: a tensor is a shape together with a flat
index function into rational values (floating-point arithmetic is modelled
by exact rationals, with the exponential passed as an abstract function).
All tensor operators the script uses -- channel slicing, concatenation,
view, permute, squeeze/unsqueeze and pointwise arithmetic -- are embedded
on this representation with Python/torch clamping-slice semantics.
-/

namespace WaveGlowExport

/-- Number of elements of a tensor of the given shape. -/
def listProd (s : List Nat) : Nat := s.foldr (fun a b => a * b) 1

/-- Row-major flat offset of a multi-index in a shape. -/
def offset : List Nat → List Nat → Nat
  | _ :: srest, i :: irest => i * listProd srest + offset srest irest
  | _, _ => 0

/-- Row-major decoding of a flat offset into a multi-index. -/
def unflatten : List Nat → Nat → List Nat
  | [], _ => []
  | _ :: rest, n => n / listProd rest :: unflatten rest (n % listProd rest)

/-- A tensor: a shape and a flat (row-major, materialized) index function. -/
structure Tensor where
  shape : List Nat
  flat : Nat → ℚ
deriving Inhabited

/-- Size of axis `i` (torch `t.size(i)`); 0 for a missing axis. -/
def Tensor.size (t : Tensor) (i : Nat) : Nat := t.shape.getD i 0

/-- Element of a tensor at a multi-index. -/
def Tensor.entry (t : Tensor) (idx : List Nat) : ℚ := t.flat (offset t.shape idx)

/-- Error taxonomy of the export pipeline (spec section 7). -/
inductive ExportError where
  | InverseNotMaterialized
  | ShapeMismatch
  | BudgetExceeded
  | IndexOutOfRange
deriving DecidableEq

/-- Python slice `x[:, lo:hi, :, :]` along the channel axis of a rank-4
tensor, with Python clamping semantics for out-of-range bounds. -/
def chanSlice (t : Tensor) (lo hi : Nat) : Tensor :=
  { shape := [t.size 0, min hi (t.size 1) - min lo (t.size 1), t.size 2, t.size 3]
    flat := fun n =>
      let i := unflatten
        [t.size 0, min hi (t.size 1) - min lo (t.size 1), t.size 2, t.size 3] n
      t.entry [i.getD 0 0, i.getD 1 0 + min lo (t.size 1), i.getD 2 0, i.getD 3 0] }

/-- torch.cat along axis 1 of two rank-4 tensors (the remaining axes are
taken from the first argument, as torch requires them to agree). -/
def cat1 (a b : Tensor) : Tensor :=
  { shape := [a.size 0, a.size 1 + b.size 1, a.size 2, a.size 3]
    flat := fun n =>
      let i := unflatten [a.size 0, a.size 1 + b.size 1, a.size 2, a.size 3] n
      if i.getD 1 0 < a.size 1 then a.entry i
      else b.entry [i.getD 0 0, i.getD 1 0 - a.size 1, i.getD 2 0, i.getD 3 0] }

/-- torch `t.view(ns)` on a contiguous tensor: reinterpret the flat data
under a new shape; fails when the element counts differ. -/
def Tensor.view (t : Tensor) (ns : List Nat) : Except ExportError Tensor :=
  if listProd ns = listProd t.shape then .ok { shape := ns, flat := t.flat }
  else .error .ShapeMismatch

/-- torch.squeeze(t, 3): drop axis 3 when it is a singleton. -/
def squeeze3 (t : Tensor) : Tensor :=
  if t.shape.getD 3 0 = 1 then { shape := t.shape.take 3, flat := t.flat } else t

/-- torch.unsqueeze(t, 3): insert a singleton axis at position 3. -/
def unsqueeze3 (t : Tensor) : Tensor :=
  { shape := t.shape.take 3 ++ 1 :: t.shape.drop 3, flat := t.flat }

/-- torch `permute(0, 2, 1, 3)` of a rank-4 tensor, materialized
(the following `.contiguous()` of the source is the identity here). -/
def permute0213 (t : Tensor) : Tensor :=
  { shape := [t.size 0, t.size 2, t.size 1, t.size 3]
    flat := fun n =>
      let i := unflatten [t.size 0, t.size 2, t.size 1, t.size 3] n
      t.entry [i.getD 0 0, i.getD 2 0, i.getD 1 0, i.getD 3 0] }

/-- torch `permute(0, 2, 1)` of a rank-3 tensor, materialized. -/
def permute021 (t : Tensor) : Tensor :=
  { shape := [t.size 0, t.size 2, t.size 1]
    flat := fun n =>
      let i := unflatten [t.size 0, t.size 2, t.size 1] n
      t.entry [i.getD 0 0, i.getD 2 0, i.getD 1 0] }

/-- Pointwise subtraction (equal-shape operands; shape of the left). -/
def tSub (a b : Tensor) : Tensor :=
  { shape := a.shape, flat := fun n => a.flat n - b.flat n }

/-- Pointwise division (equal-shape operands; shape of the left). -/
def tDiv (a b : Tensor) : Tensor :=
  { shape := a.shape, flat := fun n => a.flat n / b.flat n }

/-- torch.exp, with the real exponential abstracted as a rational map. -/
def tExp (expf : ℚ → ℚ) (t : Tensor) : Tensor :=
  { shape := t.shape, flat := fun n => expf (t.flat n) }

/-! ### The 1-D convolution modules and their 2-D rewrites -/

/-- A 1-D convolution module with a bias: weight [out, in, kernel],
bias [out], scalar stride/dilation/padding along the one spatial axis. -/
structure Conv1d where
  weight : Tensor
  bias : Tensor
  stride : Nat
  dilation : Nat
  padding : Nat

/-- A 2-D convolution module: weight [out, in, kh, kw], optional bias,
stride/dilation/padding pairs. -/
structure Conv2d where
  weight : Tensor
  bias : Option Tensor
  stride : Nat × Nat
  dilation : Nat × Nat
  padding : Nat × Nat

/-- convert_conv_1d_to_2d (export_waveglow_onnx.py lines 52-61): build a
2-D convolution with kernel (k, 1), stride (s, 1), dilation (d, 1),
padding (p, 0), copy the weight into [:, :, :, 0] (the whole weight, the
added axis being a singleton, hence the same flat data) and copy the bias. -/
def convert_conv_1d_to_2d (conv1d : Conv1d) : Conv2d :=
  { weight := { shape := [conv1d.weight.size 0, conv1d.weight.size 1,
                          conv1d.weight.size 2, 1]
                flat := conv1d.weight.flat }
    bias := some conv1d.bias
    stride := (conv1d.stride, 1)
    dilation := (conv1d.dilation, 1)
    padding := (conv1d.padding, 0) }

/-- Modelled from the spec: the InvertibleMixing module of the model
definition (the WaveGlow class itself is not part of the export script
sources).  It holds a lazily computed inverse weight matrix `W_inverse`,
absent (`none`) until the first eager inverse inference pass computes it. -/
structure Invertible1x1Conv where
  W_inverse : Option Tensor

/-- convert_convinv_1d_to_2d (lines 40-49): a 1x1 2-D convolution with no
bias whose weight [out, in, 1, 1] carries the inverse matrix.  Accessing
the never-materialized inverse fails (`InverseNotMaterialized`). -/
def convert_convinv_1d_to_2d (convinv : Invertible1x1Conv) :
    Except ExportError Conv2d :=
  match convinv.W_inverse with
  | none => .error .InverseNotMaterialized
  | some w =>
    .ok { weight := { shape := [w.size 0, w.size 1, 1, 1], flat := w.flat }
          bias := none
          stride := (1, 1)
          dilation := (1, 1)
          padding := (0, 0) }

/-- A WaveNet-like coupling stage before rewriting: all convs 1-D. -/
structure WNModule where
  start : Conv1d
  endConv : Conv1d
  in_layers : List Conv1d
  res_skip_layers : List Conv1d
  cond_layers : List Conv1d

/-- A coupling stage after the in-place rewrite.  Conditioning layers may
individually remain in 1-D form (`Sum.inl`) when left untouched. -/
structure WNModule2 where
  start : Conv2d
  endConv : Conv2d
  in_layers : List Conv2d
  res_skip_layers : List Conv2d
  cond_layers : List (Conv1d ⊕ Conv2d)

/-- The loop `for i in range(n): WN.cond_layers[i] = convert(...)` of
lines 77-78: converts the first `n` conditioning convs, leaves the rest
in 1-D form, and fails (IndexError) when fewer than `n` exist. -/
def convertCondLayers : Nat → List Conv1d → Except ExportError (List (Conv1d ⊕ Conv2d))
  | 0, rest => .ok (rest.map Sum.inl)
  | _ + 1, [] => .error .IndexOutOfRange
  | n + 1, c :: rest =>
    (convertCondLayers n rest).map fun t => Sum.inr (convert_conv_1d_to_2d c) :: t

/-- convert_WN_1d_to_2d_ (lines 64-78): rewrite the start conv, the end
conv, every in-layer conv, every res-skip conv, and the first
(res-skip count) conditioning convs.  (`endConv` stands for the source
field `end`, a reserved word here.) -/
def convert_WN_1d_to_2d_ (wn : WNModule) : Except ExportError WNModule2 :=
  (convertCondLayers wn.res_skip_layers.length wn.cond_layers).map fun conds =>
    { start := convert_conv_1d_to_2d wn.start
      endConv := convert_conv_1d_to_2d wn.endConv
      in_layers := wn.in_layers.map convert_conv_1d_to_2d
      res_skip_layers := wn.res_skip_layers.map convert_conv_1d_to_2d
      cond_layers := conds }

/-! ### The reformulated inference function, piece by piece -/

/-- Output length of the transposed convolution along the first spatial
axis for an input of length `t` (unit dilation, zero padding and output
padding, the configuration of the model upsample operator). -/
def convTransposeLen (t kernel stride : Nat) : Nat := (t - 1) * stride + kernel

/-- Length of the Python slice `a[:stop]` of a list of length `len`, for a
possibly negative `stop` (Python clamping semantics; `a[:0]` is empty). -/
def pySliceStopLen (len : Nat) (stop : Int) : Nat :=
  if stop < 0 then len - stop.natAbs else min stop.toNat len

/-- Lines 109-112: the time length after upsampling and the trim
`spect[:, :, :-time_cutoff]` with `time_cutoff = kernel - stride`
(Python `[:-0]` keeps nothing). -/
def upsampleTrimLen (t kernel stride : Nat) : Nat :=
  pySliceStopLen (convTransposeLen t kernel stride) (-((kernel : Int) - (stride : Int)))

/-- Lines 114-125: the group-interleave reshape.  The source's local
names are inlined: `length_spect_group = spect.size(2) // 8` (divisor 8
hardcoded), `mel_dim = 80` (hardcoded), `batch_size = spect.size(0)`;
the two `.contiguous()` calls are identities of the materialized model. -/
def groupReshape (n_group : Nat) (spect : Tensor) : Except ExportError Tensor :=
  ((squeeze3 spect).view [spect.size 0, 80, spect.size 2 / 8, n_group]).bind fun v1 =>
    ((permute0213 v1).view [spect.size 0, spect.size 2 / 8, n_group * 80]).map
      fun v2 => unsqueeze3 (permute021 v2)

/-- Lines 132-134: split the audio tensor into two halves along the
channel axis, with `n_half = audio.size(1) / 2` (floor division). -/
def splitHalves (audio : Tensor) : Tensor × Tensor :=
  let n_half := audio.size 1 / 2
  (chanSlice audio 0 n_half, chanSlice audio n_half (n_half + n_half))

/-- Lines 132-140: one flow-stage body before the invertible convolution:
split, evaluate the coupling network `WNk` on (audio_0, spect), read the
log-scale `s` from the second half of the output and the bias `b` from the
first half, invert the affine coupling and recombine. -/
def flowMix (expf : ℚ → ℚ) (WNk : Tensor → Tensor → Tensor)
    (spect audio : Tensor) : Tensor :=
  let n_half := audio.size 1 / 2
  let audio_0 := chanSlice audio 0 n_half
  let audio_1 := chanSlice audio n_half (n_half + n_half)
  let output := WNk audio_0 spect
  let s := chanSlice output n_half (n_half + n_half)
  let b := chanSlice output 0 n_half
  let audio_1' := tDiv (tSub audio_1 b) (tExp expf s)
  cat1 audio_0 audio_1'

/-- Lines 131-142: the full flow-stage body, ending with stage k's
rewritten inverse 1x1 convolution `convinvk`. -/
def flowStep (expf : ℚ → ℚ) (WNk : Tensor → Tensor → Tensor)
    (convinvk : Tensor → Tensor) (spect audio : Tensor) : Tensor :=
  convinvk (flowMix expf WNk spect audio)

/-- Lines 144-146: the early-exit injection at stage `k`: when `k` is a
positive multiple of `n_early_every`, prepend `z[:, :n_early_size]` onto
the audio channels and shrink `z` to `z[:, n_early_size:n_group]`. -/
def earlyExitStep (n_early_every n_early_size n_group : Nat) (k : Nat)
    (audio z : Tensor) : Tensor × Tensor :=
  if k % n_early_every = 0 ∧ 0 < k then
    (cat1 (chanSlice z 0 n_early_size) audio, chanSlice z n_early_size n_group)
  else (audio, z)

/-- Channel bookkeeping of the reverse loop (lines 131, 144-146): fold
over the stage indices `n_flows - 1, ..., 0`, tracking the total number of
channels injected so far and the current channel count of `z`; the sizes
of the slices `z[:, :n_early_size]` and `z[:, n_early_size:n_group]`
follow the clamping slice semantics. -/
def earlyExitTotals (n_flows n_early_every n_early_size n_group zc0 : Nat) :
    Nat × Nat :=
  ((List.range n_flows).reverse).foldl
    (fun acc k =>
      if k % n_early_every = 0 ∧ 0 < k then
        (acc.1 + min n_early_size acc.2, min n_group acc.2 - min n_early_size acc.2)
      else acc)
    (0, zc0)

/-- Modelled from the spec: the flow model's fixed remaining-channel count
(the WaveGlow class holding it is not part of the export script sources).
Per the spec glossary, early exit reintroduces previously set-aside latent
channels; the schedule sets aside `n_early_size` channels at each stage
`k` with `k > 0` and `k % n_early_every = 0`, so the remaining count is
the group size minus the channels so set aside. -/
def n_remaining_channels (n_flows n_early_every n_early_size n_group : Nat) : Nat :=
  n_group -
    n_early_size *
      ((List.range n_flows).filter (fun k => decide (k % n_early_every = 0 ∧ 0 < k))).length

/-! ### Concrete instances used as witnesses and counterexamples -/

/-- A concrete 1-D convolution module. -/
def c1wConv : Conv1d :=
  { weight := { shape := [2, 1, 1], flat := fun n => (n : ℚ) }
    bias := { shape := [2], flat := fun _ => (1 : ℚ) }
    stride := 3
    dilation := 2
    padding := 1 }

/-- A concrete 2x2 inverse matrix. -/
def c2wMat : Tensor := { shape := [2, 2], flat := fun n => (n : ℚ) }

/-- An invertible mixing module whose inverse has been materialized. -/
def c2wSome : Invertible1x1Conv := { W_inverse := some c2wMat }

/-- An invertible mixing module whose inverse was never materialized. -/
def c2wNone : Invertible1x1Conv := { W_inverse := none }

/-- A conditioning tensor of shape [1, 2, 2, 1]: melChannels = 2,
groupSize 2, L = 1. -/
def c4Spect : Tensor := { shape := [1, 2, 2, 1], flat := fun _ => 0 }

/-- A conditioning tensor of shape [1, 80, 16, 1] (L = 2). -/
def c4wSpect : Tensor := { shape := [1, 80, 16, 1], flat := fun n => (n : ℚ) }

/-- An audio tensor with two channels. -/
def c6Audio : Tensor := { shape := [1, 2, 1, 1], flat := fun n => (n : ℚ) }

/-- A latent remainder holding a single channel. -/
def c6Z : Tensor := { shape := [1, 1, 1, 1], flat := fun _ => 5 }

/-- An audio tensor with one channel. -/
def c6wAudio : Tensor := { shape := [1, 1, 1, 1], flat := fun n => (n : ℚ) }

/-- A latent remainder holding two channels. -/
def c6wZ : Tensor := { shape := [1, 2, 1, 1], flat := fun n => (n : ℚ) + 10 }

/-- An audio tensor with an odd channel count (3). -/
def c7Audio : Tensor := { shape := [1, 3, 1, 1], flat := fun n => (n : ℚ) }

/-- An audio tensor with an odd channel count (5) and two time steps. -/
def c7wAudio : Tensor := { shape := [1, 5, 2, 1], flat := fun n => (n : ℚ) }

/-- A small concrete 1-D convolution for coupling-stage instances. -/
def c9Conv : Conv1d :=
  { weight := { shape := [1, 1, 1], flat := fun _ => 2 }
    bias := { shape := [1], flat := fun _ => 3 }
    stride := 1
    dilation := 1
    padding := 0 }

/-- A coupling stage with one res-skip conv but two conditioning convs. -/
def c9WN : WNModule :=
  { start := c9Conv
    endConv := c9Conv
    in_layers := [c9Conv]
    res_skip_layers := [c9Conv]
    cond_layers := [c9Conv, c9Conv] }

/-- A coupling stage whose conditioning-conv and res-skip-conv counts agree. -/
def c9wWN : WNModule :=
  { start := c9Conv
    endConv := c9Conv
    in_layers := [c9Conv, c9Conv]
    res_skip_layers := [c9Conv]
    cond_layers := [c9Conv] }

/-- An audio tensor with two channels and one time step. -/
def c3wAudio : Tensor := { shape := [1, 2, 1, 1], flat := fun n => (n : ℚ) + 1 }

/-- A conditioning tensor for the coupling-stage witness. -/
def c3wSpect : Tensor := { shape := [1, 4, 1, 1], flat := fun _ => 0 }

/-- A constant coupling network returning a [1, 2, 1, 1] tensor. -/
def c3wWN : Tensor → Tensor → Tensor :=
  fun _ _ => { shape := [1, 2, 1, 1], flat := fun n => (n : ℚ) + 2 }

/-! ### Index arithmetic -/

theorem listProd_nil : listProd [] = 1 := rfl

theorem listProd_cons (s : Nat) (ss : List Nat) :
    listProd (s :: ss) = s * listProd ss := rfl

theorem offset_cons (s i : Nat) (ss is : List Nat) :
    offset (s :: ss) (i :: is) = i * listProd ss + offset ss is := rfl

theorem entry_mk (sh : List Nat) (f : Nat → ℚ) (idx : List Nat) :
    Tensor.entry ⟨sh, f⟩ idx = f (offset sh idx) := rfl

/-- A valid multi-index is bounded by the number of elements. -/
theorem offset_lt_prod {idx shape : List Nat}
    (h : List.Forall₂ (· < ·) idx shape) : offset shape idx < listProd shape := by
  induction h with
  | nil => simp [offset, listProd]
  | @cons i s is ss hi _ ih =>
    rw [offset_cons, listProd_cons]
    calc i * listProd ss + offset ss is
        < i * listProd ss + listProd ss := Nat.add_lt_add_left ih _
      _ = (i + 1) * listProd ss := by ring
      _ ≤ s * listProd ss := mul_le_mul_right' hi _

/-- Decoding the offset of a valid multi-index recovers the index. -/
theorem unflatten_offset {idx shape : List Nat}
    (h : List.Forall₂ (· < ·) idx shape) :
    unflatten shape (offset shape idx) = idx := by
  induction h with
  | nil => rfl
  | @cons i s is ss _ htail ih =>
    have ho : offset ss is < listProd ss := offset_lt_prod htail
    have hP : 0 < listProd ss := Nat.lt_of_le_of_lt (Nat.zero_le _) ho
    rw [offset_cons]
    have hdiv : (i * listProd ss + offset ss is) / listProd ss = i := by
      rw [Nat.add_comm, Nat.add_mul_div_right _ _ hP, Nat.div_eq_of_lt ho,
        Nat.zero_add]
    have hmod : (i * listProd ss + offset ss is) % listProd ss = offset ss is := by
      rw [Nat.add_comm, Nat.add_mul_mod_self_right, Nat.mod_eq_of_lt ho]
    simp only [unflatten, hdiv, hmod, ih]

/-- Validity of a rank-4 multi-index, packaged for reuse. -/
theorem forall₂_lt₄ {n c u w s0 s1 s2 s3 : Nat}
    (hn : n < s0) (hc : c < s1) (hu : u < s2) (hw : w < s3) :
    List.Forall₂ (· < ·) [n, c, u, w] [s0, s1, s2, s3] :=
  .cons hn (.cons hc (.cons hu (.cons hw .nil)))

/-- Validity of a rank-3 multi-index, packaged for reuse. -/
theorem forall₂_lt₃ {n c u s0 s1 s2 : Nat}
    (hn : n < s0) (hc : c < s1) (hu : u < s2) :
    List.Forall₂ (· < ·) [n, c, u] [s0, s1, s2] :=
  .cons hn (.cons hc (.cons hu .nil))

/-! ### Entry characterizations of the tensor operators -/

theorem chanSlice_shape (t : Tensor) (lo hi : Nat) :
    (chanSlice t lo hi).shape =
      [t.size 0, min hi (t.size 1) - min lo (t.size 1), t.size 2, t.size 3] := rfl

theorem chanSlice_entry {t : Tensor} {s0 s1 s2 s3 : Nat}
    (ht : t.shape = [s0, s1, s2, s3]) (lo hi : Nat) {n c u w : Nat}
    (hn : n < s0) (hc : c < min hi s1 - min lo s1) (hu : u < s2) (hw : w < s3) :
    (chanSlice t lo hi).entry [n, c, u, w] = t.entry [n, c + min lo s1, u, w] := by
  have hs0 : t.size 0 = s0 := by simp [Tensor.size, ht]
  have hs1 : t.size 1 = s1 := by simp [Tensor.size, ht]
  have hs2 : t.size 2 = s2 := by simp [Tensor.size, ht]
  have hs3 : t.size 3 = s3 := by simp [Tensor.size, ht]
  simp only [chanSlice, Tensor.entry, hs0, hs1, hs2, hs3]
  rw [unflatten_offset (forall₂_lt₄ hn hc hu hw)]
  simp [List.getD]

theorem cat1_shape (a b : Tensor) :
    (cat1 a b).shape = [a.size 0, a.size 1 + b.size 1, a.size 2, a.size 3] := rfl

theorem cat1_entry {a b : Tensor} {s0 ca cb s2 s3 : Nat}
    (ha : a.shape = [s0, ca, s2, s3]) (hb : b.shape = [s0, cb, s2, s3])
    {n c u w : Nat} (hn : n < s0) (hc : c < ca + cb) (hu : u < s2) (hw : w < s3) :
    (cat1 a b).entry [n, c, u, w] =
      if c < ca then a.entry [n, c, u, w] else b.entry [n, c - ca, u, w] := by
  have hsa0 : a.size 0 = s0 := by simp [Tensor.size, ha]
  have hsa1 : a.size 1 = ca := by simp [Tensor.size, ha]
  have hsa2 : a.size 2 = s2 := by simp [Tensor.size, ha]
  have hsa3 : a.size 3 = s3 := by simp [Tensor.size, ha]
  have hsb1 : b.size 1 = cb := by simp [Tensor.size, hb]
  simp only [cat1, Tensor.entry, hsa0, hsa1, hsa2, hsa3, hsb1]
  rw [unflatten_offset (forall₂_lt₄ hn hc hu hw)]
  simp [List.getD]

theorem tSub_entry {a b : Tensor} (h : b.shape = a.shape) (idx : List Nat) :
    (tSub a b).entry idx = a.entry idx - b.entry idx := by
  simp [tSub, Tensor.entry, h]

theorem tDiv_entry {a b : Tensor} (h : b.shape = a.shape) (idx : List Nat) :
    (tDiv a b).entry idx = a.entry idx / b.entry idx := by
  simp [tDiv, Tensor.entry, h]

theorem tExp_entry (expf : ℚ → ℚ) (t : Tensor) (idx : List Nat) :
    (tExp expf t).entry idx = expf (t.entry idx) := rfl

theorem permute0213_entry {t : Tensor} {s0 s1 s2 s3 : Nat}
    (ht : t.shape = [s0, s1, s2, s3]) {a x y z : Nat}
    (hA : a < s0) (hx : x < s2) (hy : y < s1) (hz : z < s3) :
    (permute0213 t).entry [a, x, y, z] = t.entry [a, y, x, z] := by
  have hs0 : t.size 0 = s0 := by simp [Tensor.size, ht]
  have hs1 : t.size 1 = s1 := by simp [Tensor.size, ht]
  have hs2 : t.size 2 = s2 := by simp [Tensor.size, ht]
  have hs3 : t.size 3 = s3 := by simp [Tensor.size, ht]
  simp only [permute0213, Tensor.entry, hs0, hs1, hs2, hs3]
  rw [unflatten_offset (forall₂_lt₄ hA hx hy hz)]
  simp [List.getD]

theorem permute021_entry {t : Tensor} {s0 s1 s2 : Nat}
    (ht : t.shape = [s0, s1, s2]) {a x y : Nat}
    (hA : a < s0) (hx : x < s2) (hy : y < s1) :
    (permute021 t).entry [a, x, y] = t.entry [a, y, x] := by
  have hs0 : t.size 0 = s0 := by simp [Tensor.size, ht]
  have hs1 : t.size 1 = s1 := by simp [Tensor.size, ht]
  have hs2 : t.size 2 = s2 := by simp [Tensor.size, ht]
  simp only [permute021, Tensor.entry, hs0, hs1, hs2]
  rw [unflatten_offset (forall₂_lt₃ hA hx hy)]
  simp [List.getD]

theorem unsqueeze3_shape {t : Tensor} {s0 s1 s2 : Nat}
    (ht : t.shape = [s0, s1, s2]) :
    (unsqueeze3 t).shape = [s0, s1, s2, 1] := by
  simp [unsqueeze3, ht]

theorem unsqueeze3_entry {t : Tensor} {s0 s1 s2 : Nat}
    (ht : t.shape = [s0, s1, s2]) (a c d : Nat) :
    (unsqueeze3 t).entry [a, c, d, 0] = t.entry [a, c, d] := by
  simp only [unsqueeze3, Tensor.entry, ht]
  congr 1

/-! ### Claim C1 -/

/-- C1: for every 1-D convolution module with a bias, convert_conv_1d_to_2d
returns a 2-D convolution whose weight is the original weight with a
trailing singleton spatial axis inserted (entrywise identical), whose bias
is the original bias unchanged, and whose stride, dilation and padding are
the original scalar values paired with 1, 1 and 0 on the added axis. -/
theorem C1_rewriteConv1D (c : Conv1d) (o i k : Nat)
    (hw : c.weight.shape = [o, i, k]) :
    (convert_conv_1d_to_2d c).weight.shape = [o, i, k, 1] ∧
    (∀ a b j : Nat,
      (convert_conv_1d_to_2d c).weight.entry [a, b, j, 0] =
        c.weight.entry [a, b, j]) ∧
    (convert_conv_1d_to_2d c).bias = some c.bias ∧
    (convert_conv_1d_to_2d c).stride = (c.stride, 1) ∧
    (convert_conv_1d_to_2d c).dilation = (c.dilation, 1) ∧
    (convert_conv_1d_to_2d c).padding = (c.padding, 0) := by
  refine ⟨?_, ?_, rfl, rfl, rfl, rfl⟩
  · simp [convert_conv_1d_to_2d, Tensor.size, hw]
  · intro a b j
    have hs0 : c.weight.size 0 = o := by simp [Tensor.size, hw]
    have hs1 : c.weight.size 1 = i := by simp [Tensor.size, hw]
    have hs2 : c.weight.size 2 = k := by simp [Tensor.size, hw]
    simp only [convert_conv_1d_to_2d, Tensor.entry, hs0, hs1, hs2, hw]
    congr 1

/-- Witness for C1 at a concrete convolution module. -/
theorem C1_witness :
    c1wConv.weight.shape = [2, 1, 1] ∧
    (convert_conv_1d_to_2d c1wConv).weight.shape = [2, 1, 1, 1] ∧
    (convert_conv_1d_to_2d c1wConv).weight.entry [1, 0, 0, 0] =
      c1wConv.weight.entry [1, 0, 0] ∧
    (convert_conv_1d_to_2d c1wConv).bias = some c1wConv.bias ∧
    (convert_conv_1d_to_2d c1wConv).stride = (3, 1) ∧
    (convert_conv_1d_to_2d c1wConv).dilation = (2, 1) ∧
    (convert_conv_1d_to_2d c1wConv).padding = (1, 0) := by
  have h := C1_rewriteConv1D c1wConv 2 1 1 rfl
  exact ⟨rfl, h.1, h.2.1 1 0 0, h.2.2.1, h.2.2.2.1, h.2.2.2.2.1, h.2.2.2.2.2⟩

/-! ### Claim C2 -/

/-- C2: convert_convinv_1d_to_2d returns, for a module whose inverse has
been materialized as a matrix of shape [o, i], a 1x1-kernel 2-D
convolution with no bias whose weight is the inverse matrix reshaped to
[o, i, 1, 1] (entrywise identical); for a module whose inverse was never
materialized, it fails with InverseNotMaterialized. -/
theorem C2_rewriteInvertibleMixing (m : Invertible1x1Conv) :
    (m.W_inverse = none →
      convert_convinv_1d_to_2d m = .error .InverseNotMaterialized) ∧
    (∀ w o i, m.W_inverse = some w → w.shape = [o, i] →
      ∃ c2, convert_convinv_1d_to_2d m = .ok c2 ∧
        c2.weight.shape = [o, i, 1, 1] ∧
        (∀ a b : Nat, c2.weight.entry [a, b, 0, 0] = w.entry [a, b]) ∧
        c2.bias = none) := by
  constructor
  · intro h
    simp [convert_convinv_1d_to_2d, h]
  · intro w o i hw hsh
    refine ⟨{ weight := { shape := [w.size 0, w.size 1, 1, 1], flat := w.flat }
              bias := none
              stride := (1, 1)
              dilation := (1, 1)
              padding := (0, 0) }, ?_, ?_, ?_, rfl⟩
    · simp [convert_convinv_1d_to_2d, hw]
    · simp [Tensor.size, hsh]
    · intro a b
      have h0 : w.size 0 = o := by simp [Tensor.size, hsh]
      have h1 : w.size 1 = i := by simp [Tensor.size, hsh]
      simp only [Tensor.entry, hsh, h0, h1]
      congr 1

/-- Witness for C2: the materialized and never-materialized cases at
concrete modules. -/
theorem C2_witness :
    c2wNone.W_inverse = none ∧
    convert_convinv_1d_to_2d c2wNone = .error .InverseNotMaterialized ∧
    c2wSome.W_inverse = some c2wMat ∧
    c2wMat.shape = [2, 2] ∧
    (convert_convinv_1d_to_2d c2wSome).map (fun c2 => c2.weight.shape) =
      .ok [2, 2, 1, 1] ∧
    (convert_convinv_1d_to_2d c2wSome).map (fun c2 => c2.weight.entry [1, 1, 0, 0]) =
      .ok (c2wMat.entry [1, 1]) ∧
    (convert_convinv_1d_to_2d c2wSome).map (fun c2 => c2.bias) = .ok none := by
  obtain ⟨c2, hok, hshape, hentry, hbias⟩ :=
    (C2_rewriteInvertibleMixing c2wSome).2 c2wMat 2 2 rfl rfl
  refine ⟨rfl, (C2_rewriteInvertibleMixing c2wNone).1 rfl, rfl, rfl, ?_, ?_, ?_⟩
  · rw [hok]; exact congrArg Except.ok hshape
  · rw [hok]; exact congrArg Except.ok (hentry 1 1)
  · rw [hok]; exact congrArg Except.ok hbias

/-! ### Claim C5 -/

/-- C5 counterexample: with kernel size equal to stride (both 2) and input
time length 1, the trimmed length is 0, not 1 * 2 = 2: the trim amount is
0 and the Python slice [:-0] keeps nothing, so the claimed identity fails
without the precondition stride < kernel. -/
theorem C5_counterexample : upsampleTrimLen 1 2 2 ≠ 1 * 2 := by decide

/-- C5 (amended): for every positive input time length and kernel size
strictly greater than the stride, the trim removes exactly
kernel - stride trailing time steps and the trimmed time length equals
t * stride exactly. -/
theorem C5_trimLength (t kernel stride : Nat) (ht : 0 < t)
    (hks : stride < kernel) :
    convTransposeLen t kernel stride - upsampleTrimLen t kernel stride =
      kernel - stride ∧
    upsampleTrimLen t kernel stride = t * stride := by
  obtain ⟨t', rfl⟩ : ∃ t', t = t' + 1 := ⟨t - 1, by omega⟩
  unfold upsampleTrimLen pySliceStopLen convTransposeLen
  have hneg : (-((kernel : Int) - (stride : Int))) < 0 := by omega
  rw [if_pos hneg]
  have habs : (-((kernel : Int) - (stride : Int))).natAbs = kernel - stride := by
    omega
  rw [habs]
  have hexp : (t' + 1) * stride = t' * stride + stride := by ring
  simp only [Nat.add_sub_cancel, hexp]
  generalize t' * stride = A
  omega

/-- Witness for C5 at the model's kernel 1024 and stride 256. -/
theorem C5_witness :
    0 < 2 ∧ 256 < 1024 ∧
    convTransposeLen 2 1024 256 - upsampleTrimLen 2 1024 256 = 1024 - 256 ∧
    upsampleTrimLen 2 1024 256 = 2 * 256 := by
  have h := C5_trimLength 2 1024 256 (by decide) (by decide)
  exact ⟨by decide, by decide, h.1, h.2⟩

/-! ### Claim C10 -/

/-- C10: for every upsampling operator whose kernel size equals its stride
the trim step empties the time axis (the transposed-conv output is
nonempty, yet everything is removed), instead of removing zero steps. -/
theorem C10_trimEqualKernelStride (t s : Nat) (_ht : 0 < t) (hs : 0 < s) :
    upsampleTrimLen t s s = 0 ∧ 0 < convTransposeLen t s s := by
  unfold upsampleTrimLen pySliceStopLen convTransposeLen
  have h0 : (-((s : Int) - (s : Int))) = 0 := by ring
  rw [h0]
  refine ⟨by norm_num, ?_⟩
  exact Nat.lt_of_lt_of_le hs (Nat.le_add_left s _)

/-- Witness for C10 at kernel = stride = 4 and time length 3. -/
theorem C10_witness :
    0 < 3 ∧ 0 < 4 ∧ upsampleTrimLen 3 4 4 = 0 ∧ 0 < convTransposeLen 3 4 4 := by
  have h := C10_trimEqualKernelStride 3 4 (by decide) (by decide)
  exact ⟨by decide, by decide, h.1, h.2⟩

/-! ### Claim C8 -/

/-- C8: for numFlows = 12, earlyExitPeriod = 4, earlyExitSize = 2,
groupSize = 8, the latent is partitioned into 4 remaining audio channels
and 4 zRemainder channels; two stages qualify for early exit (k = 4, 8),
each injects the full 2 channels, and the total injected over the reverse
iteration equals the initial zRemainder channel count exactly, leaving 0. -/
theorem C8_budgetConservation :
    8 - n_remaining_channels 12 4 2 8 = 4 ∧
    ((List.range 12).filter (fun k => decide (k % 4 = 0 ∧ 0 < k))).length = 2 ∧
    earlyExitTotals 12 4 2 8 (8 - n_remaining_channels 12 4 2 8) =
      (8 - n_remaining_channels 12 4 2 8, 0) ∧
    (earlyExitTotals 12 4 2 8 (8 - n_remaining_channels 12 4 2 8)).1 = 2 * 2 := by
  decide

/-! ### Claim C4, counterexample -/

/-- C4 counterexample: for melChannels = 2, groupSize = 2 (a valid
upsampled conditioning tensor [1, 2, 2, 1] with L = 1) the claim promises
an output of shape [1, 4, 1, 1]; the code, which hardcodes mel channel
count 80 and divisor 8, instead fails its first view with a shape
mismatch. -/
theorem C4_counterexample : groupReshape 2 c4Spect = .error .ShapeMismatch := rfl

/-! ### Claim C6, counterexample -/

/-- C6 counterexample: at the qualifying stage k = 4 with earlyExitSize 2
but only one channel left in zRemainder, the code injects the single
remaining channel and continues (audio grows from 2 to 3 channels, z
shrinks to 0 channels) instead of failing. -/
theorem C6_counterexample :
    (earlyExitStep 4 2 8 4 c6Audio c6Z).1.size 1 = 3 ∧
    (earlyExitStep 4 2 8 4 c6Audio c6Z).2.size 1 = 0 ∧
    (earlyExitStep 4 2 8 4 c6Audio c6Z).1.size 1 ≠ c6Audio.size 1 + 2 := by
  exact ⟨rfl, rfl, by decide⟩

/-! ### Claim C7, counterexample -/

/-- C7 counterexample: on an odd channel count (3) the split proceeds with
floor halves of one channel each, silently dropping the last channel,
instead of failing. -/
theorem C7_counterexample :
    (splitHalves c7Audio).1.size 1 = 1 ∧
    (splitHalves c7Audio).2.size 1 = 1 ∧
    (splitHalves c7Audio).1.size 1 + (splitHalves c7Audio).2.size 1 ≠
      c7Audio.size 1 := by
  exact ⟨rfl, rfl, by decide⟩

/-- C6 (amended): the injection fires exactly at stages k with k > 0 and
k mod earlyExitPeriod = 0; at such a stage it prepends the first
min(earlyExitSize, available) channels of zRemainder onto the front of
the audio channel axis and shrinks zRemainder to available - earlyExitSize
channels; when fewer than earlyExitSize channels remain the code injects
just the remaining ones and continues, rather than failing. -/
theorem C6_earlyExitStep (p sz g k : Nat) (audio z : Tensor) (B C Z T : Nat)
    (haud : audio.shape = [B, C, T, 1]) (hzsh : z.shape = [B, Z, T, 1])
    (hZg : Z ≤ g) :
    (¬(k % p = 0 ∧ 0 < k) → earlyExitStep p sz g k audio z = (audio, z)) ∧
    ((k % p = 0 ∧ 0 < k) →
      (earlyExitStep p sz g k audio z).1.shape = [B, min sz Z + C, T, 1] ∧
      (earlyExitStep p sz g k audio z).2.shape = [B, Z - sz, T, 1] ∧
      (∀ n c u, n < B → c < min sz Z + C → u < T →
        (earlyExitStep p sz g k audio z).1.entry [n, c, u, 0] =
          if c < min sz Z then z.entry [n, c, u, 0]
          else audio.entry [n, c - min sz Z, u, 0]) ∧
      (∀ n c u, n < B → c < Z - sz → u < T →
        (earlyExitStep p sz g k audio z).2.entry [n, c, u, 0] =
          z.entry [n, c + min sz Z, u, 0])) := by
  have hz1 : z.size 1 = Z := by simp [Tensor.size, hzsh]
  have hslice_sh : (chanSlice z 0 sz).shape = [B, min sz Z, T, 1] := by
    rw [chanSlice_shape]
    have h0 : z.size 0 = B := by simp [Tensor.size, hzsh]
    have h2 : z.size 2 = T := by simp [Tensor.size, hzsh]
    have h3 : z.size 3 = 1 := by simp [Tensor.size, hzsh]
    rw [h0, hz1, h2, h3]
    have hm : min sz Z - min 0 Z = min sz Z := by omega
    rw [hm]
  constructor
  · intro hcond
    simp [earlyExitStep, hcond]
  · intro hcond
    have hstep1 :
        (earlyExitStep p sz g k audio z).1 = cat1 (chanSlice z 0 sz) audio := by
      simp [earlyExitStep, hcond]
    have hstep2 : (earlyExitStep p sz g k audio z).2 = chanSlice z sz g := by
      simp [earlyExitStep, hcond]
    refine ⟨?_, ?_, ?_, ?_⟩
    · rw [hstep1, cat1_shape]
      simp [Tensor.size, hslice_sh, haud]
    · rw [hstep2, chanSlice_shape]
      simp [Tensor.size, hzsh]
      omega
    · intro n c u hn hc hu
      rw [hstep1, cat1_entry hslice_sh haud hn hc hu Nat.zero_lt_one]
      by_cases hcase : c < min sz Z
      · rw [if_pos hcase, if_pos hcase]
        have hb : c < min sz Z - min 0 Z := by omega
        have he := chanSlice_entry hzsh 0 sz hn hb hu Nat.zero_lt_one
        rw [he]
        have hm : min 0 Z = 0 := Nat.zero_min Z
        rw [hm, Nat.add_zero]
      · rw [if_neg hcase, if_neg hcase]
    · intro n c u hn hc hu
      rw [hstep2]
      have hb : c < min g Z - min sz Z := by omega
      exact chanSlice_entry hzsh sz g hn hb hu Nat.zero_lt_one

/-- Witness for C6: a firing stage (k = 8) and a non-firing stage (k = 3)
at concrete tensors with two zRemainder channels and size 1. -/
theorem C6_witness :
    c6wAudio.shape = [1, 1, 1, 1] ∧ c6wZ.shape = [1, 2, 1, 1] ∧ 2 ≤ 8 ∧
    earlyExitStep 4 1 8 3 c6wAudio c6wZ = (c6wAudio, c6wZ) ∧
    (earlyExitStep 4 1 8 8 c6wAudio c6wZ).1.shape = [1, min 1 2 + 1, 1, 1] ∧
    (earlyExitStep 4 1 8 8 c6wAudio c6wZ).2.shape = [1, 2 - 1, 1, 1] ∧
    (earlyExitStep 4 1 8 8 c6wAudio c6wZ).1.entry [0, 0, 0, 0] =
      (if 0 < min 1 2 then c6wZ.entry [0, 0, 0, 0]
       else c6wAudio.entry [0 - min 1 2, 0, 0, 0]) ∧
    (earlyExitStep 4 1 8 8 c6wAudio c6wZ).2.entry [0, 0, 0, 0] =
      c6wZ.entry [0, 0 + min 1 2, 0, 0] := by
  have h8 := C6_earlyExitStep 4 1 8 8 c6wAudio c6wZ 1 1 2 1 rfl rfl (by decide)
  have h3 := C6_earlyExitStep 4 1 8 3 c6wAudio c6wZ 1 1 2 1 rfl rfl (by decide)
  have hfire : (8 % 4 = 0 ∧ 0 < 8) := by decide
  obtain ⟨hsh1, hsh2, hent1, hent2⟩ := h8.2 hfire
  exact ⟨rfl, rfl, by decide, h3.1 (by decide), hsh1, hsh2,
    hent1 0 0 0 (by decide) (by decide) (by decide),
    hent2 0 0 0 (by decide) (by decide) (by decide)⟩

/-! ### Claim C7 -/

/-- C7 (amended): the split produces audio0 = the first floor(C/2)
channels and audio1 = the next floor(C/2) channels; on an odd channel
count it proceeds with floor halves, silently dropping the final channel,
rather than failing. -/
theorem C7_splitHalves (audio : Tensor) (B C T : Nat)
    (h : audio.shape = [B, C, T, 1]) :
    (splitHalves audio).1.shape = [B, C / 2, T, 1] ∧
    (splitHalves audio).2.shape = [B, C / 2, T, 1] ∧
    (∀ n c u, n < B → c < C / 2 → u < T →
      (splitHalves audio).1.entry [n, c, u, 0] = audio.entry [n, c, u, 0]) ∧
    (∀ n c u, n < B → c < C / 2 → u < T →
      (splitHalves audio).2.entry [n, c, u, 0] =
        audio.entry [n, c + C / 2, u, 0]) := by
  have hs0 : audio.size 0 = B := by simp [Tensor.size, h]
  have hs1 : audio.size 1 = C := by simp [Tensor.size, h]
  have hs2 : audio.size 2 = T := by simp [Tensor.size, h]
  have hs3 : audio.size 3 = 1 := by simp [Tensor.size, h]
  have hfst : (splitHalves audio).1 = chanSlice audio 0 (C / 2) := by
    simp [splitHalves, hs1]
  have hsnd :
      (splitHalves audio).2 = chanSlice audio (C / 2) (C / 2 + C / 2) := by
    simp [splitHalves, hs1]
  refine ⟨?_, ?_, ?_, ?_⟩
  · rw [hfst, chanSlice_shape, hs0, hs1, hs2, hs3]
    have hm : min (C / 2) C - min 0 C = C / 2 := by omega
    rw [hm]
  · rw [hsnd, chanSlice_shape, hs0, hs1, hs2, hs3]
    have hm : min (C / 2 + C / 2) C - min (C / 2) C = C / 2 := by omega
    rw [hm]
  · intro n c u hn hc hu
    rw [hfst]
    have hb : c < min (C / 2) C - min 0 C := by omega
    have he := chanSlice_entry h 0 (C / 2) hn hb hu Nat.zero_lt_one
    rw [he]
    have hm : min 0 C = 0 := Nat.zero_min C
    rw [hm, Nat.add_zero]
  · intro n c u hn hc hu
    rw [hsnd]
    have hb : c < min (C / 2 + C / 2) C - min (C / 2) C := by omega
    have he := chanSlice_entry h (C / 2) (C / 2 + C / 2) hn hb hu Nat.zero_lt_one
    rw [he]
    have hm : min (C / 2) C = C / 2 := Nat.min_eq_left (Nat.div_le_self C 2)
    rw [hm]

/-- Witness for C7 at a concrete odd-channel tensor (5 channels). -/
theorem C7_witness :
    c7wAudio.shape = [1, 5, 2, 1] ∧
    (splitHalves c7wAudio).1.shape = [1, 5 / 2, 2, 1] ∧
    (splitHalves c7wAudio).2.shape = [1, 5 / 2, 2, 1] ∧
    (splitHalves c7wAudio).1.entry [0, 1, 1, 0] = c7wAudio.entry [0, 1, 1, 0] ∧
    (splitHalves c7wAudio).2.entry [0, 1, 1, 0] =
      c7wAudio.entry [0, 1 + 5 / 2, 1, 0] := by
  have h := C7_splitHalves c7wAudio 1 5 2 rfl
  exact ⟨rfl, h.1, h.2.1,
    h.2.2.1 0 1 1 (by decide) (by decide) (by decide),
    h.2.2.2 0 1 1 (by decide) (by decide) (by decide)⟩

/-! ### Claim C9 -/

/-- C9 counterexample: with one res-skip conv but two conditioning convs,
the rewrite converts only the first conditioning conv; the second remains
in 1-D form after the call. -/
theorem C9_counterexample :
    (convert_WN_1d_to_2d_ c9WN).map (fun r => r.cond_layers.map Sum.isLeft) =
      .ok [false, true] := rfl

/-- C9 (amended): when the conditioning-conv count equals the res-skip
count, convert_WN_1d_to_2d_ converts the start conv, the end conv, every
in-layer conv, every res-skip conv and every conditioning conv to 2-D. -/
theorem C9_rewriteFlowStage (wn : WNModule)
    (h : wn.cond_layers.length = wn.res_skip_layers.length) :
    convert_WN_1d_to_2d_ wn =
      .ok { start := convert_conv_1d_to_2d wn.start
            endConv := convert_conv_1d_to_2d wn.endConv
            in_layers := wn.in_layers.map convert_conv_1d_to_2d
            res_skip_layers := wn.res_skip_layers.map convert_conv_1d_to_2d
            cond_layers := wn.cond_layers.map
              (fun c => Sum.inr (convert_conv_1d_to_2d c)) } := by
  have key : ∀ l : List Conv1d,
      convertCondLayers l.length l =
        .ok (l.map fun c => Sum.inr (convert_conv_1d_to_2d c)) := by
    intro l
    induction l with
    | nil => rfl
    | cons c rest ih => simp [convertCondLayers, ih, Except.map]
  unfold convert_WN_1d_to_2d_
  rw [← h, key wn.cond_layers]
  rfl

/-- Witness for C9 at a concrete stage with matching layer counts. -/
theorem C9_witness :
    c9wWN.cond_layers.length = c9wWN.res_skip_layers.length ∧
    convert_WN_1d_to_2d_ c9wWN =
      .ok { start := convert_conv_1d_to_2d c9wWN.start
            endConv := convert_conv_1d_to_2d c9wWN.endConv
            in_layers := c9wWN.in_layers.map convert_conv_1d_to_2d
            res_skip_layers := c9wWN.res_skip_layers.map convert_conv_1d_to_2d
            cond_layers := c9wWN.cond_layers.map
              (fun c => Sum.inr (convert_conv_1d_to_2d c)) } :=
  ⟨rfl, C9_rewriteFlowStage c9wWN rfl⟩

/-! ### Claim C3 -/

/-- C3: on an audio tensor with an even channel count 2*nHalf, the flow
loop body evaluates the stage's coupling network on (audio0, conditioning)
where audio0 is the first nHalf channels, interprets the first nHalf
channels of the result as bias b and the second nHalf as log-scale s,
replaces audio1 (channels nHalf..2*nHalf) by (audio1 - b) / exp s,
recombines as concat(audio0, audio1) along channels, and then applies the
stage's rewritten inverse 1x1 convolution to the result. -/
theorem C3_flowStep (expf : ℚ → ℚ) (WNk : Tensor → Tensor → Tensor)
    (convinvk : Tensor → Tensor) (spect audio : Tensor) (B nHalf T : Nat)
    (haud : audio.shape = [B, 2 * nHalf, T, 1])
    (hout : (WNk (chanSlice audio 0 nHalf) spect).shape = [B, 2 * nHalf, T, 1]) :
    flowStep expf WNk convinvk spect audio =
      convinvk (flowMix expf WNk spect audio) ∧
    (flowMix expf WNk spect audio).shape = [B, nHalf + nHalf, T, 1] ∧
    (∀ n c u, n < B → c < 2 * nHalf → u < T →
      (flowMix expf WNk spect audio).entry [n, c, u, 0] =
        if c < nHalf then audio.entry [n, c, u, 0]
        else
          (audio.entry [n, c, u, 0] -
              (WNk (chanSlice audio 0 nHalf) spect).entry [n, c - nHalf, u, 0]) /
            expf ((WNk (chanSlice audio 0 nHalf) spect).entry [n, c, u, 0])) := by
  have hs1 : audio.size 1 = 2 * nHalf := by simp [Tensor.size, haud]
  have hnh : 2 * nHalf / 2 = nHalf := Nat.mul_div_cancel_left nHalf (by norm_num)
  have hmix : flowMix expf WNk spect audio =
      cat1 (chanSlice audio 0 nHalf)
        (tDiv
          (tSub (chanSlice audio nHalf (nHalf + nHalf))
            (chanSlice (WNk (chanSlice audio 0 nHalf) spect) 0 nHalf))
          (tExp expf
            (chanSlice (WNk (chanSlice audio 0 nHalf) spect) nHalf
              (nHalf + nHalf)))) := by
    simp [flowMix, hs1, hnh]
  have haudio0 : (chanSlice audio 0 nHalf).shape = [B, nHalf, T, 1] := by
    rw [chanSlice_shape]
    have h0 : audio.size 0 = B := by simp [Tensor.size, haud]
    have h2 : audio.size 2 = T := by simp [Tensor.size, haud]
    have h3 : audio.size 3 = 1 := by simp [Tensor.size, haud]
    rw [h0, hs1, h2, h3]
    have hm : min nHalf (2 * nHalf) - min 0 (2 * nHalf) = nHalf := by omega
    rw [hm]
  have haudio1 :
      (chanSlice audio nHalf (nHalf + nHalf)).shape = [B, nHalf, T, 1] := by
    rw [chanSlice_shape]
    have h0 : audio.size 0 = B := by simp [Tensor.size, haud]
    have h2 : audio.size 2 = T := by simp [Tensor.size, haud]
    have h3 : audio.size 3 = 1 := by simp [Tensor.size, haud]
    rw [h0, hs1, h2, h3]
    have hm : min (nHalf + nHalf) (2 * nHalf) - min nHalf (2 * nHalf) = nHalf := by
      omega
    rw [hm]
  have hbsh :
      (chanSlice (WNk (chanSlice audio 0 nHalf) spect) 0 nHalf).shape =
        [B, nHalf, T, 1] := by
    rw [chanSlice_shape]
    have h0 : (WNk (chanSlice audio 0 nHalf) spect).size 0 = B := by
      simp [Tensor.size, hout]
    have h1 : (WNk (chanSlice audio 0 nHalf) spect).size 1 = 2 * nHalf := by
      simp [Tensor.size, hout]
    have h2 : (WNk (chanSlice audio 0 nHalf) spect).size 2 = T := by
      simp [Tensor.size, hout]
    have h3 : (WNk (chanSlice audio 0 nHalf) spect).size 3 = 1 := by
      simp [Tensor.size, hout]
    rw [h0, h1, h2, h3]
    have hm : min nHalf (2 * nHalf) - min 0 (2 * nHalf) = nHalf := by omega
    rw [hm]
  have hssh :
      (chanSlice (WNk (chanSlice audio 0 nHalf) spect) nHalf
          (nHalf + nHalf)).shape = [B, nHalf, T, 1] := by
    rw [chanSlice_shape]
    have h0 : (WNk (chanSlice audio 0 nHalf) spect).size 0 = B := by
      simp [Tensor.size, hout]
    have h1 : (WNk (chanSlice audio 0 nHalf) spect).size 1 = 2 * nHalf := by
      simp [Tensor.size, hout]
    have h2 : (WNk (chanSlice audio 0 nHalf) spect).size 2 = T := by
      simp [Tensor.size, hout]
    have h3 : (WNk (chanSlice audio 0 nHalf) spect).size 3 = 1 := by
      simp [Tensor.size, hout]
    rw [h0, h1, h2, h3]
    have hm : min (nHalf + nHalf) (2 * nHalf) - min nHalf (2 * nHalf) = nHalf := by
      omega
    rw [hm]
  have ha1'sh :
      (tDiv
          (tSub (chanSlice audio nHalf (nHalf + nHalf))
            (chanSlice (WNk (chanSlice audio 0 nHalf) spect) 0 nHalf))
          (tExp expf
            (chanSlice (WNk (chanSlice audio 0 nHalf) spect) nHalf
              (nHalf + nHalf)))).shape = [B, nHalf, T, 1] := by
    simp [tDiv, tSub, haudio1]
  refine ⟨rfl, ?_, ?_⟩
  · rw [hmix, cat1_shape]
    simp [Tensor.size, haudio0, ha1'sh]
  · intro n c u hn hc hu
    have hc2 : c < nHalf + nHalf := by omega
    rw [hmix, cat1_entry haudio0 ha1'sh hn hc2 hu Nat.zero_lt_one]
    by_cases hcase : c < nHalf
    · rw [if_pos hcase, if_pos hcase]
      have hb : c < min nHalf (2 * nHalf) - min 0 (2 * nHalf) := by omega
      have he := chanSlice_entry haud 0 nHalf hn hb hu Nat.zero_lt_one
      rw [he]
      have hm : min 0 (2 * nHalf) = 0 := Nat.zero_min _
      rw [hm, Nat.add_zero]
    · rw [if_neg hcase, if_neg hcase]
      have hshEq :
          (tExp expf
              (chanSlice (WNk (chanSlice audio 0 nHalf) spect) nHalf
                (nHalf + nHalf))).shape =
            (tSub (chanSlice audio nHalf (nHalf + nHalf))
              (chanSlice (WNk (chanSlice audio 0 nHalf) spect) 0 nHalf)).shape := by
        simp [tExp, tSub, hssh, haudio1]
      have hshEq2 :
          (chanSlice (WNk (chanSlice audio 0 nHalf) spect) 0 nHalf).shape =
            (chanSlice audio nHalf (nHalf + nHalf)).shape := by
        rw [hbsh, haudio1]
      rw [tDiv_entry hshEq, tSub_entry hshEq2, tExp_entry]
      have hmin : min nHalf (2 * nHalf) = nHalf := by omega
      have hb1 :
          c - nHalf <
            min (nHalf + nHalf) (2 * nHalf) - min nHalf (2 * nHalf) := by omega
      have ha1e := chanSlice_entry haud nHalf (nHalf + nHalf) hn hb1 hu
        Nat.zero_lt_one
      rw [ha1e, hmin]
      have hceq : c - nHalf + nHalf = c := by omega
      rw [hceq]
      have hb2 : c - nHalf < min nHalf (2 * nHalf) - min 0 (2 * nHalf) := by omega
      have hbe := chanSlice_entry hout 0 nHalf hn hb2 hu Nat.zero_lt_one
      rw [hbe]
      have hm0 : min 0 (2 * nHalf) = 0 := Nat.zero_min _
      rw [hm0, Nat.add_zero]
      have hb3 :
          c - nHalf <
            min (nHalf + nHalf) (2 * nHalf) - min nHalf (2 * nHalf) := by omega
      have hse := chanSlice_entry hout nHalf (nHalf + nHalf) hn hb3 hu
        Nat.zero_lt_one
      rw [hse, hmin, hceq]

/-- Witness for C3 at a concrete two-channel audio tensor, a constant
coupling network and the identity in place of the inverse convolution. -/
theorem C3_witness :
    c3wAudio.shape = [1, 2 * 1, 1, 1] ∧
    (c3wWN (chanSlice c3wAudio 0 1) c3wSpect).shape = [1, 2 * 1, 1, 1] ∧
    flowStep (fun q => q + 2) c3wWN (fun t => t) c3wSpect c3wAudio =
      (fun t => t) (flowMix (fun q => q + 2) c3wWN c3wSpect c3wAudio) ∧
    (flowMix (fun q => q + 2) c3wWN c3wSpect c3wAudio).shape = [1, 1 + 1, 1, 1] ∧
    (flowMix (fun q => q + 2) c3wWN c3wSpect c3wAudio).entry [0, 1, 0, 0] =
      (if 1 < 1 then c3wAudio.entry [0, 1, 0, 0]
       else
         (c3wAudio.entry [0, 1, 0, 0] -
             (c3wWN (chanSlice c3wAudio 0 1) c3wSpect).entry [0, 1 - 1, 0, 0]) /
           (fun q => q + 2)
             ((c3wWN (chanSlice c3wAudio 0 1) c3wSpect).entry [0, 1, 0, 0])) := by
  have h := C3_flowStep (fun q => q + 2) c3wWN (fun t => t) c3wSpect c3wAudio
    1 1 1 rfl rfl
  exact ⟨rfl, rfl, h.1, h.2.1, h.2.2 0 1 0 (by decide) (by decide) (by decide)⟩

/-! ### Claim C4, amended theorem -/

/-- C4 (amended): the group-interleave reshape succeeds with final shape
[batch, 640, L, 1] and entry (n, j, l, 0) equal to input entry
(n, j / 8, 8*l + j % 8, 0) -- but only for the hardcoded melChannels = 80
and groupSize = 8, with L computed as upsampledTime / 8 (a hardcoded
divisor, not the model group size); for other mel channel counts or group
sizes the hardcoded view fails, as the counterexample shows. -/
theorem C4_groupReshape (spect : Tensor) (b L : Nat)
    (hsh : spect.shape = [b, 80, 8 * L, 1]) :
    (groupReshape 8 spect).toOption.isSome = true ∧
    ((groupReshape 8 spect).toOption.getD default).shape = [b, 640, L, 1] ∧
    (∀ n j l, n < b → j < 640 → l < L →
      ((groupReshape 8 spect).toOption.getD default).entry [n, j, l, 0] =
        spect.entry [n, j / 8, 8 * l + j % 8, 0]) := by
  have hs0 : spect.size 0 = b := by simp [Tensor.size, hsh]
  have hs2 : spect.size 2 = 8 * L := by simp [Tensor.size, hsh]
  have hL : spect.size 2 / 8 = L := by
    rw [hs2]; exact Nat.mul_div_cancel_left L (by norm_num)
  have hsq : squeeze3 spect = ⟨[b, 80, 8 * L], spect.flat⟩ := by
    simp [squeeze3, hsh]
  have hview1 :
      (squeeze3 spect).view [spect.size 0, 80, spect.size 2 / 8, 8] =
        .ok ⟨[b, 80, L, 8], spect.flat⟩ := by
    rw [hsq, hs0, hL]
    have hc : listProd [b, 80, L, 8] =
        listProd (Tensor.mk [b, 80, 8 * L] spect.flat).shape := by
      show listProd [b, 80, L, 8] = listProd [b, 80, 8 * L]
      simp only [listProd, List.foldr]
      ring
    unfold Tensor.view
    rw [if_pos hc]
  have hview2 :
      (permute0213 (Tensor.mk [b, 80, L, 8] spect.flat)).view
          [spect.size 0, spect.size 2 / 8, 8 * 80] =
        .ok ⟨[b, L, 8 * 80],
          (permute0213 (Tensor.mk [b, 80, L, 8] spect.flat)).flat⟩ := by
    rw [hs0, hL]
    have hp1sh : (permute0213 (Tensor.mk [b, 80, L, 8] spect.flat)).shape =
        [b, L, 80, 8] := by
      simp [permute0213, Tensor.size]
    have hc : listProd [b, L, 8 * 80] =
        listProd (permute0213 (Tensor.mk [b, 80, L, 8] spect.flat)).shape := by
      rw [hp1sh]
      simp only [listProd, List.foldr]
    unfold Tensor.view
    rw [if_pos hc]
  have hGR : groupReshape 8 spect =
      .ok (unsqueeze3 (permute021 (Tensor.mk [b, L, 8 * 80]
        (permute0213 (Tensor.mk [b, 80, L, 8] spect.flat)).flat))) := by
    unfold groupReshape
    rw [hview1]
    show ((permute0213 (Tensor.mk [b, 80, L, 8] spect.flat)).view
        [spect.size 0, spect.size 2 / 8, 8 * 80]).map
          (fun v2 => unsqueeze3 (permute021 v2)) = _
    rw [hview2]
    rfl
  have hgetD : (groupReshape 8 spect).toOption.getD default =
      unsqueeze3 (permute021 (Tensor.mk [b, L, 8 * 80]
        (permute0213 (Tensor.mk [b, 80, L, 8] spect.flat)).flat)) := by
    rw [hGR]; rfl
  have hp2sh :
      (permute021 (Tensor.mk [b, L, 8 * 80]
        (permute0213 (Tensor.mk [b, 80, L, 8] spect.flat)).flat)).shape =
        [b, 640, L] := by
    simp [permute021, Tensor.size]
  refine ⟨by rw [hGR]; rfl, ?_, ?_⟩
  · rw [hgetD, unsqueeze3_shape hp2sh]
  · intro n j l hn hj hl
    rw [hgetD]
    have hm8 : j / 8 < 80 := by omega
    have hr8 : j % 8 < 8 := by omega
    have hV2sh : (Tensor.mk [b, L, 8 * 80]
        (permute0213 (Tensor.mk [b, 80, L, 8] spect.flat)).flat).shape =
        [b, L, 640] := by norm_num
    have step1 := unsqueeze3_entry hp2sh n j l
    have step2 := permute021_entry hV2sh hn hj hl
    have step3 : (Tensor.mk [b, L, 8 * 80]
        (permute0213 (Tensor.mk [b, 80, L, 8] spect.flat)).flat).entry
          [n, l, j] =
        (permute0213 (Tensor.mk [b, 80, L, 8] spect.flat)).flat
          (offset [b, L, 8 * 80] [n, l, j]) := rfl
    have hoff1 : offset [b, L, 8 * 80] [n, l, j] =
        offset [b, L, 80, 8] [n, l, j / 8, j % 8] := by
      simp only [offset]
      have e1 : listProd [L, 8 * 80] = listProd [L, 80, 8] := by
        simp only [listProd, List.foldr]
      have e2 : listProd [8 * 80] = listProd [80, 8] := by
        simp only [listProd, List.foldr]
      have einner : j * listProd [] + 0 =
          j / 8 * listProd [8] + (j % 8 * listProd [] + 0) := by
        simp only [listProd, List.foldr]
        omega
      rw [e1, e2, einner]
    have step4 : (permute0213 (Tensor.mk [b, 80, L, 8] spect.flat)).flat
          (offset [b, L, 80, 8] [n, l, j / 8, j % 8]) =
        (permute0213 (Tensor.mk [b, 80, L, 8] spect.flat)).entry
          [n, l, j / 8, j % 8] := rfl
    have step5 := permute0213_entry
      (rfl : (Tensor.mk [b, 80, L, 8] spect.flat).shape = [b, 80, L, 8])
      hn hl hm8 hr8
    have hoff2 : offset [b, 80, L, 8] [n, j / 8, l, j % 8] =
        offset [b, 80, 8 * L, 1] [n, j / 8, 8 * l + j % 8, 0] := by
      simp only [offset]
      have e1 : listProd [80, L, 8] = listProd [80, 8 * L, 1] := by
        simp only [listProd, List.foldr]
        ring
      have e2 : listProd [L, 8] = listProd [8 * L, 1] := by
        simp only [listProd, List.foldr]
        ring
      have einner : l * listProd [8] + (j % 8 * listProd [] + 0) =
          (8 * l + j % 8) * listProd [1] + (0 * listProd [] + 0) := by
        simp only [listProd, List.foldr]
        omega
      rw [e1, e2, einner]
    have step6 : (Tensor.mk [b, 80, L, 8] spect.flat).entry
          [n, j / 8, l, j % 8] =
        spect.flat (offset [b, 80, 8 * L, 1] [n, j / 8, 8 * l + j % 8, 0]) := by
      rw [entry_mk, hoff2]
    have step7 : spect.entry [n, j / 8, 8 * l + j % 8, 0] =
        spect.flat (offset [b, 80, 8 * L, 1] [n, j / 8, 8 * l + j % 8, 0]) := by
      simp only [Tensor.entry, hsh]
    rw [step1, step2, step3, hoff1, step4, step5, step6, step7]

/-- Witness for C4 at a concrete [1, 80, 16, 1] conditioning tensor. -/
theorem C4_witness :
    c4wSpect.shape = [1, 80, 8 * 2, 1] ∧
    (groupReshape 8 c4wSpect).toOption.isSome = true ∧
    ((groupReshape 8 c4wSpect).toOption.getD default).shape = [1, 640, 2, 1] ∧
    ((groupReshape 8 c4wSpect).toOption.getD default).entry [0, 13, 1, 0] =
      c4wSpect.entry [0, 13 / 8, 8 * 1 + 13 % 8, 0] := by
  have h := C4_groupReshape c4wSpect 1 2 rfl
  exact ⟨rfl, h.1, h.2.1, h.2.2 0 13 1 (by decide) (by decide) (by decide)⟩

end WaveGlowExport
